import Mathlib

/-!
Verification of the SSP Bayesian-optimization agent
(`ssp_bayes_opt/agent.py`, class `SSPAgent`).

The agent is embedded shallowly over `ℝ`:

* numpy vectors become `List ℝ`, matrices become `List (List ℝ)`;
* the external modules `ssp` (basis generation, fractional binding) and
  `blr` (Bayesian linear regression), as well as the scipy minimizer and
  numpy's `pinv` / random draws, are not part of the translated sources;
  they are collected in `ExternalCtx` as abstract primitives, modelled
  from the spec at their interfaces;
* floating-point arithmetic is idealized as exact real arithmetic.
-/

/-- Dot product of two real vectors (`a @ b` for 1-D numpy arrays). -/
def dotL (a b : List ℝ) : ℝ := (List.zipWith (fun x y => x * y) a b).sum

/-- Matrix–vector product (`M @ v`): one dot product per row. -/
def matVec (M : List (List ℝ)) (v : List ℝ) : List ℝ := M.map (fun r => dotL r v)

/-- Vector–matrix product (`v @ M`): dot of `v` with each column of `M`. -/
def vecMat (v : List ℝ) (M : List (List ℝ)) : List ℝ := matVec M.transpose v

/-- Quadratic form `v @ M @ vᵀ` as computed in `optim_func`
(`ptr @ sigma @ ptr.T`). -/
def quadForm (v : List ℝ) (M : List (List ℝ)) : ℝ := dotL (vecMat v M) v

/-- Modelled from the spec: the Posterior State of the Bayesian linear
regression module `blr` (not under `src/`): mean weight vector `m`,
covariance `S`, and the observation-noise term `beta` (β⁻¹) that
`agent.py` reads as `self.blr.m`, `self.blr.S`, `self.blr.beta`. -/
structure BLRState where
  m : List ℝ
  S : List (List ℝ)
  beta : ℝ

/-- Modelled from the spec: the primitives `agent.py` imports from the
`ssp` and `blr` modules (not under `src/`) and from numpy/scipy, kept
abstract at their interfaces:

* `sspEncode p e` — `ssp.encode(p, e)`: fractional binding of pointer `p`
  to exponent `e`;
* `sspBind` — `ssp.bind`: the associative binding operator;
* `hexBasis dim n_rotates n_scales scale_min scale_max` —
  `ssp.HexagonalBasis(...)` after `np.vstack`;
* `randomBasis dim axis_dim` — `ssp.RandomBasis(...)` after `np.vstack`;
* `blrInit d` — `blr.BayesianLinearRegression(d)`;
* `blrUpdate b phis ys` — `blr.update`, the closed-form posterior update;
* `blrPredict b phis` — `blr.predict`, pure, returning `(mu, var)`;
* `pinv` — `np.linalg.pinv`, the Moore–Penrose pseudo-inverse;
* `minimizeLS loss x0` — `scipy.optimize.minimize(loss, x0,
  method=L-BFGS-B).x`, the unconstrained length-scale fit result;
* `minimizeP f x0 bounds` — the bounded local minimizer
  `scipy.optimize.minimize(f, x0, method=L-BFGS-B, bounds=bounds)`,
  returning `(soln.x, soln.fun)`;
* `draw i` — the `i`-th `np.random.uniform(low, high)` draw of a restart
  starting point. -/
structure ExternalCtx where
  sspEncode : List ℝ → ℝ → List ℝ
  sspBind : List ℝ → List ℝ → List ℝ
  hexBasis : ℕ → ℕ → ℕ → ℝ → ℝ → List (List ℝ)
  randomBasis : ℕ → ℕ → List (List ℝ)
  blrInit : ℕ → BLRState
  blrUpdate : BLRState → List (List ℝ) → List ℝ → BLRState
  blrPredict : BLRState → List (List ℝ) → List ℝ × List ℝ
  pinv : List (List ℝ) → List (List ℝ)
  minimizeLS : (List ℝ → ℝ) → List ℝ → List ℝ
  minimizeP : (List ℝ → ℝ) → List ℝ → List (ℝ × ℝ) → List ℝ × ℝ
  draw : ℕ → List ℝ

/-- The mutable state of `SSPAgent` after `__init__`: the fields the
methods read and write (`self.num_restarts`, `self.ptrs`, `self.ssp_dim`,
`self.length_scale`, `self.blr`, `self.gamma_t`, `self.sqrt_alpha`,
`self.phis`). -/
structure SSPAgentState where
  num_restarts : ℕ
  ptrs : List (List ℝ)
  ssp_dim : ℕ
  length_scale : List ℝ
  blr : BLRState
  gamma_t : ℝ
  sqrt_alpha : ℝ
  phis : Option (List (List ℝ))

/-- `SSPAgent._encode(ptrs, x, length_scale)`: for each input row, the
per-dimension fractional bindings `ssp.encode(p, x[i,j] / length_scale[j])`
are reduced with `functools.reduce(ssp.bind, vs)`. -/
noncomputable def agentEncode (ctx : ExternalCtx) (ptrs : List (List ℝ)) (length_scale : List ℝ)
    (xs : List (List ℝ)) : List (List ℝ) :=
  xs.map (fun row =>
    let vs := (List.zip ptrs (List.zip row length_scale)).map
      (fun pxl => ctx.sspEncode pxl.1 (pxl.2.1 / pxl.2.2))
    match vs with
    | [] => []
    | v :: rest => rest.foldl ctx.sspBind v)

/-- `SSPAgent.encode(xs) = self._encode(self.ptrs, xs, self.length_scale)`. -/
noncomputable def agentEncodeS (ctx : ExternalCtx) (s : SSPAgentState) (xs : List (List ℝ)) :
    List (List ℝ) :=
  agentEncode ctx s.ptrs s.length_scale xs

/-- The starting guess `ls_0 = 4. * np.ones((init_xs.shape[1],))` of
`_optimize_lengthscale`. -/
def lsInit (init_xs : List (List ℝ)) : List ℝ :=
  List.replicate (init_xs.headD []).length 4

/-- `min_func` inside `SSPAgent._optimize_lengthscale`: encode the initial
samples with `np.abs(length_scale)`, least-squares fit via the
pseudo-inverse, and return the summed squared residual. -/
noncomputable def lsLoss (ctx : ExternalCtx) (ptrs : List (List ℝ)) (init_xs : List (List ℝ))
    (init_ys : List ℝ) (length_scale : List ℝ) : ℝ :=
  let init_phis := agentEncode ctx ptrs (length_scale.map abs) init_xs
  let W := matVec (ctx.pinv init_phis) init_ys
  let mu := matVec init_phis W
  ((List.zipWith (fun a b => a - b) init_ys mu).map (fun d => d ^ 2)).sum

/-- `SSPAgent._optimize_lengthscale`: run the unconstrained L-BFGS-B fit
from `ls_0` and return `np.abs(retval.x)` component-wise. -/
noncomputable def optimizeLengthscale (ctx : ExternalCtx) (ptrs : List (List ℝ))
    (init_xs : List (List ℝ)) (init_ys : List ℝ) : List ℝ :=
  (ctx.minimizeLS (lsLoss ctx ptrs init_xs init_ys) (lsInit init_xs)).map abs

/-- The hex-basis back-solve in `SSPAgent.__init__`: when
`(n_rotates==8) & (n_scales==8) & (axis_dim!=385)` the counts are replaced
by `int(np.sqrt((axis_dim-1)/6))` (Python float division, `int` truncation
of a non-negative value = floor); otherwise they are kept. Returns
`(n_rotates, n_scales)`. -/
noncomputable def hexCounts (axis_dim n_scales n_rotates : ℕ) : ℕ × ℕ :=
  if n_rotates = 8 ∧ n_scales = 8 ∧ axis_dim ≠ 385 then
    (⌊Real.sqrt (((axis_dim : ℝ) - 1) / 6)⌋₊, ⌊Real.sqrt (((axis_dim : ℝ) - 1) / 6)⌋₊)
  else (n_rotates, n_scales)

/-- `SSPAgent.__init__`: choose the basis (hex with back-solved counts, or
random), fit the length scale, seed the BLR posterior with the encoded
initial batch, and initialize `num_restarts = 10`, `gamma_t = 0`,
`sqrt_alpha = np.log(2/1e-6)`, `phis = None`. -/
noncomputable def mkAgent (ctx : ExternalCtx) (init_xs : List (List ℝ))
    (init_ys : List ℝ) (axis_is_hex : Bool) (axis_dim n_scales n_rotates : ℕ)
    (scale_min scale_max : ℝ) : SSPAgentState :=
  let data_dim := (init_xs.headD []).length
  let ptrs :=
    if axis_is_hex then
      let counts := hexCounts axis_dim n_scales n_rotates
      ctx.hexBasis data_dim counts.1 counts.2 scale_min scale_max
    else ctx.randomBasis data_dim axis_dim
  let ssp_dim := if axis_is_hex then (ptrs.headD []).length else axis_dim
  let ls := optimizeLengthscale ctx ptrs init_xs init_ys
  let init_phis := agentEncode ctx ptrs ls init_xs
  { num_restarts := 10
    ptrs := ptrs
    ssp_dim := ssp_dim
    length_scale := ls
    blr := ctx.blrUpdate (ctx.blrInit ssp_dim) init_phis init_ys
    gamma_t := 0
    sqrt_alpha := Real.log (2 / 1e-6)
    phis := none }

/-- The triple returned by `SSPAgent.eval`. -/
structure EvalResult where
  mu : List ℝ
  var : List ℝ
  bonus : List ℝ

/-- `SSPAgent.eval(xs)`: if the cache `self.phis` is `None`, store
`self.encode(xs)` in it; predict at the cached encodings; and return
`(mu, var, sqrt_alpha * (np.sqrt(var + gamma_t) - np.sqrt(gamma_t)))`
together with the post-call state. -/
noncomputable def agentEval (ctx : ExternalCtx) (s : SSPAgentState)
    (xs : List (List ℝ)) : EvalResult × SSPAgentState :=
  let phis := match s.phis with
    | none => agentEncodeS ctx s xs
    | some p => p
  let s' := { s with phis := some phis }
  let pv := ctx.blrPredict s.blr phis
  let bonus := pv.2.map
    (fun v => s.sqrt_alpha * (Real.sqrt (v + s.gamma_t) - Real.sqrt s.gamma_t))
  (⟨pv.1, pv.2, bonus⟩, s')

/-- `np.argmax`: index of the first occurrence of the maximum of a list
(`0` on the empty list, where numpy raises instead; `select_optimal`
always applies it to the non-empty list of restart values). -/
noncomputable def npArgmax : List ℝ → ℕ
  | [] => 0
  | a :: rest =>
    let j := npArgmax rest
    if a < rest.getD j a then j + 1 else 0

/-- `SSPAgent.select_optimal.optim_func`: the inner objective over the
original input space, with the posterior snapshot `(m, S, gamma, beta)`
bound from `self` when `select_optimal` is entered (Python default
arguments are evaluated at function definition time). -/
noncomputable def optimFunc (ctx : ExternalCtx) (s : SSPAgentState) (x : List ℝ) : ℝ :=
  let ptr := (agentEncodeS ctx s [x]).headD []
  let val := dotL ptr s.blr.m
  let mi := Real.sqrt (s.gamma_t + s.blr.beta + quadForm ptr s.blr.S) -
    Real.sqrt s.gamma_t;
  -(val + mi)

/-- The acquisition objective exactly as the spec words it:
`objective(x) = -(encode(x)·m + sqrt(γ_t + β⁻¹ + encode(x)·S·encode(x)ᵗ) - sqrt(γ_t))`. -/
noncomputable def specObjective (ctx : ExternalCtx) (s : SSPAgentState) (x : List ℝ) : ℝ :=
  let enc := (agentEncodeS ctx s [x]).headD [];
  -(dotL enc s.blr.m +
    Real.sqrt (s.gamma_t + s.blr.beta + quadForm enc s.blr.S) -
    Real.sqrt s.gamma_t)

/-- The list of restart results of `SSPAgent.select_optimal`: one bounded
L-BFGS-B run per restart, each from a fresh random start drawn within
`bounds`, all minimizing the same `optim_func`. -/
noncomputable def restartResults (ctx : ExternalCtx) (s : SSPAgentState)
    (bounds : List (ℝ × ℝ)) : List (List ℝ × ℝ) :=
  (List.range s.num_restarts).map
    (fun i => ctx.minimizeP (optimFunc ctx s) (ctx.draw i) bounds)

/-- `SSPAgent.select_optimal(bounds)`: collect `num_restarts` local
solutions, take `vals = [-soln.fun ...]`, and return
`(solns[np.argmax(vals)], vals[np.argmax(vals)], 0)` together with the
post-call state (the method assigns no attribute of `self`). -/
noncomputable def selectOptimal (ctx : ExternalCtx) (s : SSPAgentState)
    (bounds : List (ℝ × ℝ)) : (List ℝ × ℝ × ℝ) × SSPAgentState :=
  let results := restartResults ctx s bounds
  let vals := results.map (fun r => -r.2)
  let solns := results.map (fun r => r.1)
  let i := npArgmax vals
  ((solns.getD i [], vals.getD i 0, 0), s)

/-- A point lies in a box: same dimension as `bounds` and each coordinate
within its `[lower, upper]` pair. -/
def inBounds (pt : List ℝ) (bounds : List (ℝ × ℝ)) : Prop :=
  List.Forall₂ (fun a b => b.1 ≤ a ∧ a ≤ b.2) pt bounds

/-- A numpy `ndarray`, reduced to what `SSPAgent.update` uses: its shape
tuple and its flat data. A scalar (0-d) array has shape `[]`. -/
structure NpArray where
  shape : List ℕ
  data : List ℝ

/-- `a.reshape(r, c)`: succeeds exactly when the element count matches. -/
def npReshape2 (a : NpArray) (r c : ℕ) : Option NpArray :=
  if a.data.length = r * c then some ⟨[r, c], a.data⟩ else none

/-- The rows of a 2-D array (`shape = [r, c]`). -/
def npRows (a : NpArray) : List (List ℝ) :=
  match a.shape with
  | [r, c] => (List.range r).map (fun i => (a.data.drop (i * c)).take c)
  | _ => [a.data]

/-- The shape normalization at the top of `SSPAgent.update`: when
`len(x_t.shape) < 2`, both `x_t` and `y_t` are reshaped through
`reshape(1, arr.shape[0])`; indexing `shape[0]` of a 0-d array fails
(numpy raises `IndexError`), modelled by `none`. -/
def normalizeXY (x_t y_t : NpArray) : Option (NpArray × NpArray) :=
  if x_t.shape.length < 2 then do
    let n ← x_t.shape.head?
    let x_val ← npReshape2 x_t 1 n
    let m ← y_t.shape.head?
    let y_val ← npReshape2 y_t 1 m
    pure (x_val, y_val)
  else pure (x_t, y_t)

/-- `SSPAgent.update(x_t, y_t, sigma_t)`: normalize shapes, encode, feed
the BLR update, and add `sigma_t` to `gamma_t`; `none` models the call
raising (shape normalization failure). -/
noncomputable def agentUpdate (ctx : ExternalCtx) (s : SSPAgentState)
    (x_t y_t : NpArray) (sigma_t : ℝ) : Option SSPAgentState :=
  (normalizeXY x_t y_t).map (fun xy =>
    { s with
      blr := ctx.blrUpdate s.blr (agentEncodeS ctx s (npRows xy.1)) xy.2.data
      gamma_t := s.gamma_t + sigma_t })

/-- A sequence of `update` calls; a raising call leaves the state as it
was (the exception aborts the sequence). -/
noncomputable def runUpdates (ctx : ExternalCtx) (s : SSPAgentState) :
    List (NpArray × NpArray × ℝ) → SSPAgentState
  | [] => s
  | u :: rest =>
    match agentUpdate ctx s u.1 u.2.1 u.2.2 with
    | some st => runUpdates ctx st rest
    | none => s

/-- `List.getD` does not depend on the default when the index is in range. -/
theorem getD_irrel (l : List ℝ) (n : ℕ) (d1 d2 : ℝ) (h : n < l.length) :
    l.getD n d1 = l.getD n d2 := by
  induction l generalizing n with
  | nil => simp at h
  | cons a t ih =>
    cases n with
    | zero => rfl
    | succ m => exact ih m (Nat.lt_of_succ_lt_succ h)

/-- `getD` through `map`, in range. -/
theorem getD_map {α β : Type} (f : α → β) (l : List α) (i : ℕ) (d : α) (d2 : β)
    (h : i < l.length) : (l.map f).getD i d2 = f (l.getD i d) := by
  induction l generalizing i with
  | nil => simp at h
  | cons a t ih =>
    cases i with
    | zero => rfl
    | succ m => exact ih m (Nat.lt_of_succ_lt_succ h)

/-- `np.argmax` returns an index inside a non-empty list. -/
theorem npArgmax_lt_length : ∀ (l : List ℝ), l ≠ [] → npArgmax l < l.length := by
  intro l hl
  induction l with
  | nil => exact absurd rfl hl
  | cons a t ih =>
    by_cases ht : t = []
    · subst ht; simp [npArgmax]
    · have h1 := ih ht
      simp only [npArgmax, List.length_cons]
      split
      · exact Nat.succ_lt_succ h1
      · exact Nat.succ_pos _

/-- The element at the `np.argmax` index dominates every list element. -/
theorem le_getD_npArgmax : ∀ (l : List ℝ), ∀ x ∈ l, x ≤ l.getD (npArgmax l) 0 := by
  intro l
  induction l with
  | nil => intro x hx; simp at hx
  | cons a t ih =>
    intro x hx
    by_cases ht : t = []
    · subst ht
      simp only [List.mem_singleton] at hx
      subst hx
      simp [npArgmax]
    · have hlt : npArgmax t < t.length := npArgmax_lt_length t ht
      have hgd : t.getD (npArgmax t) a = t.getD (npArgmax t) 0 :=
        getD_irrel t (npArgmax t) a 0 hlt
      simp only [npArgmax]
      split
      · rename_i hcond
        rw [List.getD_cons_succ]
        rcases List.mem_cons.mp hx with rfl | hxt
        · exact le_of_lt (hgd ▸ hcond)
        · exact ih x hxt
      · rename_i hcond
        rw [List.getD_cons_zero]
        rcases List.mem_cons.mp hx with rfl | hxt
        · exact le_refl x
        · exact (ih x hxt).trans (hgd ▸ not_lt.mp hcond)

/-- A concrete instantiation of the external primitives, used to exercise
the agent on closed inputs: encoding keeps the scaled coordinate,
prediction reads the first entry of each encoding, the local minimizer
returns the lower corner of the box. -/
noncomputable def ctx0 : ExternalCtx where
  sspEncode := fun _ e => [e]
  sspBind := fun a _ => a
  hexBasis := fun _ _ _ _ _ => [[0]]
  randomBasis := fun _ _ => [[0]]
  blrInit := fun _ => ⟨[1], [[0]], 0⟩
  blrUpdate := fun b _ _ => b
  blrPredict := fun _ phis =>
    (phis.map (fun r => r.headD 0), phis.map (fun r => r.headD 0))
  pinv := fun M => M.transpose
  minimizeLS := fun _ x0 => x0
  minimizeP := fun _ _ bds => (bds.map Prod.fst, 0)
  draw := fun _ => [0]

/-- A concrete agent state: one input dimension, one-dimensional encoding,
length scale 1, empty cache, `gamma_t = 0`. -/
noncomputable def s0 : SSPAgentState where
  num_restarts := 10
  ptrs := [[0]]
  ssp_dim := 1
  length_scale := [1]
  blr := ⟨[1], [[0]], 0⟩
  gamma_t := 0
  sqrt_alpha := 1
  phis := none

/-- The state after one successful `update` on `s0` with `sigma_t = 1`. -/
noncomputable def sA1 : SSPAgentState :=
  { s0 with gamma_t := s0.gamma_t + 1 }

/-- Claim C3: the inner objective minimized by `select_optimal` equals
`-(encode(x)·m + sqrt(γ_t + β⁻¹ + encode(x)·S·encode(x)ᵗ) - sqrt(γ_t))`,
evaluated at the posterior mean `m`, covariance `S`, accumulator `γ_t`,
and noise term `β⁻¹` current when `select_optimal` is called (the snapshot
`s` bound into `optim_func`'s default arguments). -/
theorem C3_objective_formula (ctx : ExternalCtx) (s : SSPAgentState) (x : List ℝ) :
    optimFunc ctx s x = specObjective ctx s x := by
  simp only [optimFunc, specObjective]
  ring

/-- Claim C9: `select_optimal` is side-effect-free on the agent's shared
state — the post-call state, and in particular the posterior mean `m`,
covariance `S`, noise term `β⁻¹`, and accumulator `γ_t`, coincide with the
pre-call values, and every one of the restarts minimizes the objective
built from that same pre-call snapshot `s`. -/
theorem C9_select_optimal_frame (ctx : ExternalCtx) (s : SSPAgentState)
    (bounds : List (ℝ × ℝ)) :
    (selectOptimal ctx s bounds).2 = s ∧
    (selectOptimal ctx s bounds).2.blr.m = s.blr.m ∧
    (selectOptimal ctx s bounds).2.blr.S = s.blr.S ∧
    (selectOptimal ctx s bounds).2.blr.beta = s.blr.beta ∧
    (selectOptimal ctx s bounds).2.gamma_t = s.gamma_t ∧
    restartResults ctx s bounds =
      (List.range s.num_restarts).map
        (fun i => ctx.minimizeP (optimFunc ctx s) (ctx.draw i) bounds) :=
  ⟨rfl, rfl, rfl, rfl, rfl, rfl⟩

/-- Claim C6: for the hexagonal variant with the rotate/scale counts left
at their defaults (8, 8), the constructor uses
`rotates = scales = floor(sqrt((axis_dim - 1) / 6))`; this also covers the
skipped branch `axis_dim = 385`, where the retained defaults (8, 8) equal
the back-solved value `floor(sqrt(384 / 6)) = floor(sqrt(64)) = 8`. -/
theorem C6_hex_backsolve (axis_dim : ℕ) :
    hexCounts axis_dim 8 8 =
      (⌊Real.sqrt (((axis_dim : ℝ) - 1) / 6)⌋₊,
       ⌊Real.sqrt (((axis_dim : ℝ) - 1) / 6)⌋₊) := by
  by_cases h : axis_dim = 385
  · subst h
    have hc : hexCounts 385 8 8 = (8, 8) := by simp [hexCounts]
    have h64 : (((385 : ℕ) : ℝ) - 1) / 6 = 64 := by norm_num
    have hsq : Real.sqrt 64 = 8 := by
      rw [show (64 : ℝ) = 8 ^ 2 by norm_num]
      exact Real.sqrt_sq (by norm_num)
    rw [hc, h64, hsq]
    norm_num
  · simp [hexCounts, h]

/-- Claim C1 (code bug): `__init__` stores `np.log(2/1e-6)` — not
`sqrt(log(2/δ))` — in `sqrt_alpha`, and `sqrt(log(2/1e-6))` is strictly
smaller than the stored value (since `log(2/1e-6) > 1`), so the two
differ; the exploration bonus returned by `eval` does follow the claimed
shape `sqrt_alpha * (sqrt(var + γ_t) - sqrt(γ_t))` in terms of the stored
`sqrt_alpha`. -/
theorem C1_sqrt_alpha_missing_sqrt :
    (∀ ctx init_xs init_ys hex axis_dim n_scales n_rotates smin smax,
      (mkAgent ctx init_xs init_ys hex axis_dim n_scales n_rotates smin smax).sqrt_alpha =
        Real.log (2 / 1e-6)) ∧
    Real.sqrt (Real.log (2 / 1e-6)) < Real.log (2 / 1e-6) ∧
    (∀ ctx s xs, (agentEval ctx s xs).1.bonus =
      (agentEval ctx s xs).1.var.map
        (fun v => s.sqrt_alpha * (Real.sqrt (v + s.gamma_t) - Real.sqrt s.gamma_t))) := by
  refine ⟨fun _ _ _ _ _ _ _ _ _ => rfl, ?_, fun _ _ _ => rfl⟩
  have h0 : (2 / 1e-6 : ℝ) = 2000000 := by norm_num
  have h1 : 1 < Real.log (2 / 1e-6) := by
    rw [h0, Real.lt_log_iff_exp_lt (by norm_num)]
    calc Real.exp 1 < 2.7182818286 := Real.exp_one_lt_d9
      _ < 2000000 := by norm_num
  rw [Real.sqrt_lt' (by linarith)]
  nlinarith

/-- Claim C2 (amended): `eval` predicts at the cached encoding — on a call
with an empty cache (`phis = None`, in particular the first call) the
argument batch is encoded and cached, and every call with a non-empty
cache reuses the cached encoding regardless of its argument; in all cases
`(mu, var) = PosteriorModel.predict(phis.getD (encode xs))`. -/
theorem C2_eval_uses_cached_encoding (ctx : ExternalCtx) (s : SSPAgentState)
    (xs : List (List ℝ)) :
    (((agentEval ctx s xs).1.mu, (agentEval ctx s xs).1.var) =
      ctx.blrPredict s.blr (s.phis.getD (agentEncodeS ctx s xs))) ∧
    (agentEval ctx s xs).2.phis = some (s.phis.getD (agentEncodeS ctx s xs)) := by
  rcases hp : s.phis with _ | p <;> simp [agentEval, hp]

/-- Claim C2 fails as stated: from a fresh agent, a first `eval` on batch
`[[1]]` fills the cache, and a second `eval` on the distinct batch `[[2]]`
returns predictions at the first batch's encodings, not at its own. -/
theorem C2_counterexample :
    ¬ (((agentEval ctx0 (agentEval ctx0 s0 [[1]]).2 [[2]]).1.mu,
        (agentEval ctx0 (agentEval ctx0 s0 [[1]]).2 [[2]]).1.var) =
       ctx0.blrPredict (agentEval ctx0 s0 [[1]]).2.blr
         (agentEncodeS ctx0 (agentEval ctx0 s0 [[1]]).2 [[2]])) := by
  simp [agentEval, agentEncodeS, agentEncode, ctx0, s0]

/-- Claim C5 (amended): the length-scale calibrator returns the
component-wise absolute value of the unconstrained fit result; this makes
every entry non-negative, and every entry is strictly positive provided
the unconstrained fit result has no zero component (absolute value maps a
zero component to zero, so strict positivity is not guaranteed
unconditionally). -/
theorem C5_lengthscale_abs_projection :
    (∀ ctx ptrs init_xs init_ys,
      optimizeLengthscale ctx ptrs init_xs init_ys =
        (ctx.minimizeLS (lsLoss ctx ptrs init_xs init_ys) (lsInit init_xs)).map abs) ∧
    (∀ ctx ptrs init_xs init_ys,
      ∀ v ∈ optimizeLengthscale ctx ptrs init_xs init_ys, 0 ≤ v) ∧
    (∀ ctx ptrs init_xs init_ys,
      (∀ r ∈ ctx.minimizeLS (lsLoss ctx ptrs init_xs init_ys) (lsInit init_xs),
        r ≠ 0) →
      ∀ v ∈ optimizeLengthscale ctx ptrs init_xs init_ys, 0 < v) := by
  refine ⟨fun _ _ _ _ => rfl, ?_, ?_⟩
  · intro ctx ptrs init_xs init_ys v hv
    rw [optimizeLengthscale, List.mem_map] at hv
    obtain ⟨r, _, rfl⟩ := hv
    exact abs_nonneg r
  · intro ctx ptrs init_xs init_ys hne v hv
    rw [optimizeLengthscale, List.mem_map] at hv
    obtain ⟨r, hr, rfl⟩ := hv
    exact abs_pos.mpr (hne r hr)

/-- Witness for C5: with the concrete fit primitive of `ctx0` the
unconstrained result is `[4]`, has no zero component, and the calibrated
length scale is strictly positive. -/
theorem C5_witness :
    (∀ r ∈ ctx0.minimizeLS (lsLoss ctx0 [[0]] [[1]] [1]) (lsInit [[1]]), r ≠ 0) ∧
    (∀ v ∈ optimizeLengthscale ctx0 [[0]] [[1]] [1], 0 < v) := by
  have h : ∀ r ∈ ctx0.minimizeLS (lsLoss ctx0 [[0]] [[1]] [1]) (lsInit [[1]]),
      r ≠ 0 := by
    intro r hr
    simp [ctx0, lsInit] at hr
    rw [hr]
    norm_num
  exact ⟨h, C5_lengthscale_abs_projection.2.2 ctx0 [[0]] [[1]] [1] h⟩

/-- The external context whose unconstrained length-scale fit returns a
zero component. -/
noncomputable def ctxZero : ExternalCtx := { ctx0 with minimizeLS := fun _ _ => [0] }

/-- Claim C5 fails as stated: if the unconstrained fit returns `[0]`, the
absolute-value projection yields the entry `0`, which is not strictly
positive — the projection alone does not guarantee the invariant. -/
theorem C5_counterexample :
    ¬ (∀ v ∈ optimizeLengthscale ctxZero [[0]] [[1]] [1], 0 < v) := by
  intro h
  have h0 : (0 : ℝ) ∈ optimizeLengthscale ctxZero [[0]] [[1]] [1] := by
    simp [optimizeLengthscale, ctxZero, ctx0]
  exact lt_irrefl 0 (h 0 h0)

/-- Claim C7: every successful `update(x_t, y_t, sigma_t)` call increments
the exploration accumulator by exactly `sigma_t`, and across any sequence
of `update` calls with non-negative `sigma_t` the accumulator `gamma_t` is
monotonically non-decreasing. -/
theorem C7_gamma_increment :
    (∀ ctx s x_t y_t sigma_t s1, agentUpdate ctx s x_t y_t sigma_t = some s1 →
      s1.gamma_t = s.gamma_t + sigma_t) ∧
    (∀ ctx s l, (∀ u ∈ l, 0 ≤ u.2.2) →
      s.gamma_t ≤ (runUpdates ctx s l).gamma_t) := by
  constructor
  · intro ctx s x_t y_t sigma_t s1 h
    cases hnx : normalizeXY x_t y_t with
    | none => simp [agentUpdate, hnx] at h
    | some xy =>
      simp only [agentUpdate, hnx, Option.map_some', Option.some_inj] at h
      rw [← h]
  · intro ctx s l
    induction l generalizing s with
    | nil => intro _; exact le_refl _
    | cons u rest ih =>
      intro hσ
      rw [runUpdates]
      cases hu : agentUpdate ctx s u.1 u.2.1 u.2.2 with
      | none => exact le_refl _
      | some s1 =>
        have hg : s1.gamma_t = s.gamma_t + u.2.2 := by
          cases hnx : normalizeXY u.1 u.2.1 with
          | none => simp [agentUpdate, hnx] at hu
          | some xy =>
            simp only [agentUpdate, hnx, Option.map_some', Option.some_inj] at hu
            rw [← hu]
        have h1 : s.gamma_t ≤ s1.gamma_t := by
          rw [hg]
          have := hσ u (List.mem_cons_self u rest)
          linarith
        exact h1.trans (ih s1 (fun v hv => hσ v (List.mem_cons_of_mem u hv)))

/-- Witness for C7: one concrete successful update with `sigma_t = 1`
raises `gamma_t` by `1`, and a one-call sequence with non-negative noise
does not decrease it. -/
theorem C7_witness :
    sA1.gamma_t = s0.gamma_t + 1 ∧
    s0.gamma_t ≤ (runUpdates ctx0 s0 [(⟨[1], [5]⟩, ⟨[1], [7]⟩, 1)]).gamma_t :=
  ⟨C7_gamma_increment.1 ctx0 s0 ⟨[1], [5]⟩ ⟨[1], [7]⟩ 1 sA1 rfl,
   C7_gamma_increment.2 ctx0 s0 [(⟨[1], [5]⟩, ⟨[1], [7]⟩, 1)]
     (by intro u hu; simp only [List.mem_singleton] at hu; subst hu; norm_num)⟩

/-- Claim C10: `update` with a 1-D `x_t` requires a `y_t` whose shape has
an indexable first entry (`y_t.shape[0]` is read to reshape it); with a
1-D `x_t` and a scalar (0-d) `y_t` the call fails instead of being treated
as a single observation, while a 1-D `y_t` of consistent size succeeds. -/
theorem C10_update_scalar_y_fails :
    (∀ ctx s x_t y_t sigma_t, x_t.shape.length = 1 → y_t.shape = [] →
      agentUpdate ctx s x_t y_t sigma_t = none) ∧
    (∀ ctx s x_t y_t sigma_t (n m : ℕ),
      x_t.shape = [n] → x_t.data.length = n →
      y_t.shape = [m] → y_t.data.length = m →
      (agentUpdate ctx s x_t y_t sigma_t).isSome = true) := by
  constructor
  · intro ctx s x_t y_t sigma_t hx hy
    obtain ⟨n, hn⟩ : ∃ n, x_t.shape = [n] := by
      cases hxs : x_t.shape with
      | nil => rw [hxs] at hx; simp at hx
      | cons a t =>
        rw [hxs] at hx
        simp at hx
        exact ⟨a, by rw [hx]⟩
    have hnorm : normalizeXY x_t y_t = none := by
      rw [normalizeXY]
      simp only [hn, hy]
      rw [if_pos (by simp [hn])]
      cases hr : npReshape2 x_t 1 n with
      | none => simp [hr]
      | some xv => simp [hr]
    simp [agentUpdate, hnorm]
  · intro ctx s x_t y_t sigma_t n m hxs hxd hys hyd
    have hnorm : normalizeXY x_t y_t =
        some (⟨[1, n], x_t.data⟩, ⟨[1, m], y_t.data⟩) := by
      rw [normalizeXY]
      rw [if_pos (by simp [hxs])]
      simp [hxs, hys, npReshape2, hxd, hyd]
    simp [agentUpdate, hnorm]

/-- Witness for C10: update on `s0` with a 1-D point and a scalar target
raises, and with a 1-D target of matching size it succeeds. -/
theorem C10_witness :
    agentUpdate ctx0 s0 ⟨[1], [5]⟩ ⟨[], [7]⟩ 1 = none ∧
    (agentUpdate ctx0 s0 ⟨[1], [5]⟩ ⟨[1], [7]⟩ 1).isSome = true :=
  ⟨C10_update_scalar_y_fails.1 ctx0 s0 ⟨[1], [5]⟩ ⟨[], [7]⟩ 1 rfl rfl,
   C10_update_scalar_y_fails.2 ctx0 s0 ⟨[1], [5]⟩ ⟨[1], [7]⟩ 1 1 1 rfl rfl rfl rfl⟩

/-- `getD` agrees with indexing when the index is in range. -/
theorem getD_eq_elem {α : Type} (l : List α) (i : ℕ) (d : α) (h : i < l.length) :
    l.getD i d = l[i] := by
  induction l generalizing i with
  | nil => simp at h
  | cons a t ih =>
    cases i with
    | zero => rfl
    | succ m => exact ih m (Nat.lt_of_succ_lt_succ h)

/-- `getD` on `List.range`, in range. -/
theorem getD_range (n i : ℕ) (h : i < n) : (List.range n).getD i 0 = i := by
  have hl : i < (List.range n).length := by simpa using h
  rw [getD_eq_elem (List.range n) i 0 hl]
  simp

/-- The entry of `restartResults` at an in-range index is the local
minimizer's output for that restart's random start. -/
theorem restartResults_getD (ctx : ExternalCtx) (s : SSPAgentState)
    (bounds : List (ℝ × ℝ)) (i : ℕ) (h : i < s.num_restarts) :
    (restartResults ctx s bounds).getD i ([], 0) =
      ctx.minimizeP (optimFunc ctx s) (ctx.draw i) bounds := by
  rw [restartResults]
  rw [getD_map (fun j => ctx.minimizeP (optimFunc ctx s) (ctx.draw j) bounds)
    (List.range s.num_restarts) i 0 ([], 0) (by simpa using h)]
  rw [getD_range s.num_restarts i h]

/-- Claim C4: `select_optimal` performs exactly `num_restarts = 10`
restarts (the count fixed at construction), and the returned point and
score are those of the restart whose acquisition score `-soln.fun` is
maximal among them. -/
theorem C4_ten_restarts_argmax :
    (∀ ctx init_xs init_ys hex axis_dim n_scales n_rotates smin smax,
      (mkAgent ctx init_xs init_ys hex axis_dim n_scales n_rotates
        smin smax).num_restarts = 10) ∧
    (∀ ctx s bounds, (restartResults ctx s bounds).length = s.num_restarts) ∧
    (∀ ctx s bounds, 0 < s.num_restarts →
      ∃ i < s.num_restarts,
        (selectOptimal ctx s bounds).1.1 =
          ((restartResults ctx s bounds).getD i ([], 0)).1 ∧
        (selectOptimal ctx s bounds).1.2.1 =
          -((restartResults ctx s bounds).getD i ([], 0)).2 ∧
        ∀ r ∈ restartResults ctx s bounds,
          -r.2 ≤ (selectOptimal ctx s bounds).1.2.1) := by
  refine ⟨fun _ _ _ _ _ _ _ _ _ => rfl,
    fun ctx s bounds => by simp [restartResults], ?_⟩
  intro ctx s bounds hpos
  have hlen : (restartResults ctx s bounds).length = s.num_restarts := by
    simp [restartResults]
  have hvlen : ((restartResults ctx s bounds).map (fun r => -r.2)).length =
      s.num_restarts := by simp [hlen]
  have hne : (restartResults ctx s bounds).map (fun r => -r.2) ≠ [] := by
    intro h
    rw [h] at hvlen
    simp at hvlen
    omega
  have hi := npArgmax_lt_length _ hne
  rw [hvlen] at hi
  refine ⟨npArgmax ((restartResults ctx s bounds).map (fun r => -r.2)), hi,
    ?_, ?_, ?_⟩
  · show ((restartResults ctx s bounds).map (fun r => r.1)).getD
        (npArgmax ((restartResults ctx s bounds).map (fun r => -r.2))) [] =
      ((restartResults ctx s bounds).getD
        (npArgmax ((restartResults ctx s bounds).map (fun r => -r.2))) ([], 0)).1
    exact getD_map (fun r => r.1) (restartResults ctx s bounds) _ ([], 0) []
      (by rw [hlen]; exact hi)
  · show ((restartResults ctx s bounds).map (fun r => -r.2)).getD
        (npArgmax ((restartResults ctx s bounds).map (fun r => -r.2))) 0 =
      -((restartResults ctx s bounds).getD
        (npArgmax ((restartResults ctx s bounds).map (fun r => -r.2))) ([], 0)).2
    exact getD_map (fun r => -r.2) (restartResults ctx s bounds) _ ([], 0) 0
      (by rw [hlen]; exact hi)
  · intro r hr
    show -r.2 ≤ ((restartResults ctx s bounds).map (fun r => -r.2)).getD
        (npArgmax ((restartResults ctx s bounds).map (fun r => -r.2))) 0
    exact le_getD_npArgmax _ _ (List.mem_map_of_mem _ hr)

/-- Witness for C4: on the concrete agent `s0` (ten restarts) over the box
`[(-1, 1)]`, the selected point and score come from a restart whose score
dominates all ten. -/
theorem C4_witness :
    ∃ i < s0.num_restarts,
      (selectOptimal ctx0 s0 [(-1, 1)]).1.1 =
        ((restartResults ctx0 s0 [(-1, 1)]).getD i ([], 0)).1 ∧
      (selectOptimal ctx0 s0 [(-1, 1)]).1.2.1 =
        -((restartResults ctx0 s0 [(-1, 1)]).getD i ([], 0)).2 ∧
      ∀ r ∈ restartResults ctx0 s0 [(-1, 1)],
        -r.2 ≤ (selectOptimal ctx0 s0 [(-1, 1)]).1.2.1 :=
  C4_ten_restarts_argmax.2.2 ctx0 s0 [(-1, 1)] (by decide)

/-- Claim C8: provided the bounded local minimizer returns points
respecting the box it is passed, the point returned by
`select_optimal(bounds)` has every coordinate within its `[lower, upper]`
interval. -/
theorem C8_point_within_bounds (ctx : ExternalCtx) (s : SSPAgentState)
    (bounds : List (ℝ × ℝ)) (hpos : 0 < s.num_restarts)
    (hmin : ∀ f x0, inBounds (ctx.minimizeP f x0 bounds).1 bounds) :
    inBounds (selectOptimal ctx s bounds).1.1 bounds := by
  have hlen : (restartResults ctx s bounds).length = s.num_restarts := by
    simp [restartResults]
  have hvlen : ((restartResults ctx s bounds).map (fun r => -r.2)).length =
      s.num_restarts := by simp [hlen]
  have hne : (restartResults ctx s bounds).map (fun r => -r.2) ≠ [] := by
    intro h
    rw [h] at hvlen
    simp at hvlen
    omega
  have hi := npArgmax_lt_length _ hne
  rw [hvlen] at hi
  have hpoint : (selectOptimal ctx s bounds).1.1 =
      ((restartResults ctx s bounds).getD
        (npArgmax ((restartResults ctx s bounds).map (fun r => -r.2)))
        ([], 0)).1 := by
    show ((restartResults ctx s bounds).map (fun r => r.1)).getD
        (npArgmax ((restartResults ctx s bounds).map (fun r => -r.2))) [] =
      ((restartResults ctx s bounds).getD
        (npArgmax ((restartResults ctx s bounds).map (fun r => -r.2))) ([], 0)).1
    exact getD_map (fun r => r.1) (restartResults ctx s bounds) _ ([], 0) []
      (by rw [hlen]; exact hi)
  rw [hpoint, restartResults_getD ctx s bounds _ hi]
  exact hmin (optimFunc ctx s)
    (ctx.draw (npArgmax ((restartResults ctx s bounds).map (fun r => -r.2))))

/-- Witness for C8: with `ctx0`'s minimizer (returns the lower corner of
the box) and the box `[(-1, 1)]`, the selected point is within bounds. -/
theorem C8_witness : inBounds (selectOptimal ctx0 s0 [(-1, 1)]).1.1 [(-1, 1)] :=
  C8_point_within_bounds ctx0 s0 [(-1, 1)] (by decide)
    (by
      intro f x0
      show inBounds ([((-1 : ℝ), (1 : ℝ))].map Prod.fst) [(-1, 1)]
      refine List.Forall₂.cons ⟨le_refl _, by norm_num⟩ List.Forall₂.nil)
